import Mathlib

/-!
Verification of the token-bucket rate-limiting middleware
(`src/middleware/rateLimiting.ts`) of the TalkToMachine repository.

Numbers are modelled by `ℚ` (the JavaScript numbers involved are small and
exact), timestamps by `ℚ` milliseconds as produced by `Date.now()`, and the
in-memory `Map` of buckets by an association list.  Each method of the
mutating TypeScript classes becomes a pure function returning its result
together with the updated state; a `Date.now()` call becomes an explicit
`now` argument.
-/

namespace RateLimiting

/-- State of one `TokenBucket` instance: current `tokens` (real-valued),
`lastRefill` timestamp in ms, and the immutable `capacity` and
`refillRate` (tokens per second) fixed by the constructor. -/
structure TokenBucket where
  tokens : ℚ
  lastRefill : ℚ
  capacity : ℚ
  refillRate : ℚ
deriving DecidableEq, Repr

/-- `new TokenBucket(capacity, refillRate)` at wall-clock time `now`:
`tokens = capacity`, `lastRefill = Date.now()`. -/
def TokenBucket.create (capacity refillRate now : ℚ) : TokenBucket :=
  { tokens := capacity, lastRefill := now, capacity := capacity, refillRate := refillRate }

/-- `refill()`: `elapsed = (now - lastRefill) / 1000` seconds,
`tokens = min(capacity, tokens + elapsed * refillRate)`, `lastRefill = now`. -/
def TokenBucket.refill (b : TokenBucket) (now : ℚ) : TokenBucket :=
  { b with
    tokens := min b.capacity (b.tokens + (now - b.lastRefill) / 1000 * b.refillRate)
    lastRefill := now }

/-- `consume(tokens)`: refill, then if `this.tokens >= tokens` subtract and
return `true`, else return `false`. -/
def TokenBucket.consume (b : TokenBucket) (now : ℚ) (cost : ℚ) : Bool × TokenBucket :=
  let b1 := b.refill now
  if cost ≤ b1.tokens then (true, { b1 with tokens := b1.tokens - cost })
  else (false, b1)

/-- `getTokens()`: refill, then `Math.floor(this.tokens)`. -/
def TokenBucket.getTokens (b : TokenBucket) (now : ℚ) : ℤ × TokenBucket :=
  let b1 := b.refill now
  (⌊b1.tokens⌋, b1)

/-- `getTimeUntilRefill()`: refill; `0` if at least one token is available,
otherwise `(1 - tokens) / refillRate` seconds. -/
def TokenBucket.getTimeUntilRefill (b : TokenBucket) (now : ℚ) : ℚ × TokenBucket :=
  let b1 := b.refill now
  if 1 ≤ b1.tokens then ((0 : ℚ), b1) else ((1 - b1.tokens) / b1.refillRate, b1)

/-- The `RateLimitStore`'s `Map<string, TokenBucket>` as an association list. -/
abbrev Store := List (String × TokenBucket)

/-- `Map.get` on the store. -/
def storeFind : Store → String → Option TokenBucket
  | [], _ => none
  | (k, b) :: rest, key => if k = key then some b else storeFind rest key

/-- Write back the (mutated-in-place in TypeScript) bucket for `key`. -/
def storeSet : Store → String → TokenBucket → Store
  | [], _, _ => []
  | (k, b) :: rest, key, b2 =>
      if k = key then (k, b2) :: rest else (k, b) :: storeSet rest key b2

/-- `RateLimitStore.getBucket(key, capacity, refillRate)`: return the
existing bucket if present, otherwise create one (full) and insert it. -/
def getBucket (s : Store) (key : String) (capacity refillRate now : ℚ) :
    TokenBucket × Store :=
  match storeFind s key with
  | some b => (b, s)
  | none =>
      let b := TokenBucket.create capacity refillRate now
      (b, (key, b) :: s)

/-- `RateLimitStore.cleanup()`: `cutoff = now - 10 minutes`; delete every
entry with `bucket.getTokens() === bucket.capacity && bucket.lastRefill < cutoff`.
The `getTokens()` call refills the bucket first, and that mutation persists
in the map. -/
def cleanup (s : Store) (now : ℚ) : Store :=
  s.filterMap (fun e =>
    let g := e.2.getTokens now
    if (g.1 : ℚ) = g.2.capacity ∧ g.2.lastRefill < now - 10 * 60 * 1000 then none
    else some (e.1, g.2))

/-- The caller-supplied part of `RateLimitConfig` (key generator and message
are modelled separately). -/
structure RateLimitConfig where
  windowMs : ℚ
  max : ℚ
deriving DecidableEq, Repr

/-- A constructed policy: the configuration together with the derived
`refillRate = max / (windowMs / 1000)` captured by the middleware closure. -/
structure Policy where
  windowMs : ℚ
  max : ℚ
  refillRate : ℚ
deriving DecidableEq, Repr

/-- `createRateLimit(config)`: computes `refillRate` and returns the
middleware; the body performs no validation of `max` or `windowMs`. -/
def createRateLimit (cfg : RateLimitConfig) : Policy :=
  { windowMs := cfg.windowMs, max := cfg.max
    refillRate := cfg.max / (cfg.windowMs / 1000) }

/-- Result of the middleware's interaction with one bucket. -/
inductive BucketResult where
  | admitted (remaining : ℤ)
  | denied (retryAfterSeconds : ℤ)
deriving DecidableEq, Repr

/-- The middleware body seen from the bucket: try `consume()`; on admit
report `getTokens()` as the remaining count, on deny report
`Math.ceil(getTimeUntilRefill())` as Retry-After. -/
def bucketStep (b : TokenBucket) (now : ℚ) : BucketResult × TokenBucket :=
  let c := b.consume now 1
  if c.1 = true then
    let g := c.2.getTokens now
    (BucketResult.admitted g.1, g.2)
  else
    let d := c.2.getTimeUntilRefill now
    (BucketResult.denied ⌈d.1⌉, d.2)

/-- Observable outcome of one middleware invocation: the admit branch with
its `X-RateLimit-Remaining`, the 429 branch with the literal `'0'` remaining
and `Retry-After`, or the catch branch (error logged, `next()` called). -/
inductive Outcome where
  | allowed (limit : ℚ) (remaining : ℤ)
  | denied (limit : ℚ) (remaining : ℤ) (retryAfterSeconds : ℤ)
  | allowedOnError
deriving DecidableEq, Repr

/-- Whether `next()` was called (request admitted to the handler). -/
def Outcome.nextCalled : Outcome → Bool
  | Outcome.allowed _ _ => true
  | Outcome.allowedOnError => true
  | Outcome.denied _ _ _ => false

/-- Whether the middleware answered with the 429 branch. -/
def Outcome.isDenied : Outcome → Bool
  | Outcome.denied _ _ _ => true
  | _ => false

/-- Translate a bucket-level result into the response the middleware sends:
`X-RateLimit-Limit = config.max` on both branches, and on deny the literal
`'0'` remaining. -/
def outcomeOf (p : Policy) (r : BucketResult) : Outcome :=
  match r with
  | BucketResult.admitted rem => Outcome.allowed p.max rem
  | BucketResult.denied ra => Outcome.denied p.max 0 ra

/-- The middleware body after key derivation: get-or-create the bucket,
consume, and build either the admit headers or the deny response. -/
def handleRequest (p : Policy) (s : Store) (key : String) (now : ℚ) :
    Outcome × Store :=
  let g := getBucket s key p.max p.refillRate now
  let r := bucketStep g.1 now
  (outcomeOf p r.1, storeSet g.2 key r.2)

/-- Request descriptor: the fields of the Express `Request` that the key
generators read.  `none` and `some ""` are both falsy for `||` and `?:`. -/
structure Req where
  ip : Option String
  connectionRemoteAddress : Option String
  userUid : Option String
deriving DecidableEq, Repr

/-- JavaScript truthiness of an optional string: empty string is falsy. -/
def truthyOpt : Option String → Option String
  | some s => if s = "" then none else some s
  | none => none

/-- `a || d` for an optional string `a` and a default `d`. -/
def orElseStr (a : Option String) (d : String) : String :=
  (truthyOpt a).getD d

/-- `getDefaultKey(req)`: `req.ip || req.connection.remoteAddress || 'unknown'`. -/
def getDefaultKey (req : Req) : String :=
  orElseStr req.ip (orElseStr req.connectionRemoteAddress "unknown")

/-- `userKeyGenerator(req)`: `` `user:${userId}` `` when `req.user?.uid` is
truthy, else `` `ip:${ip}` ``. -/
def userKeyGenerator (req : Req) : String :=
  let ip := orElseStr req.ip (orElseStr req.connectionRemoteAddress "unknown")
  match truthyOpt req.userUid with
  | some uid => "user:" ++ uid
  | none => "ip:" ++ ip

/-- The middleware's `try`/`catch`: derive the key (the only step of the
`try` block that can throw in the source), run the request against the
store; on an error, log it and call `next()` with the store untouched. -/
def middleware (p : Policy) (keyGen : Req → Except String String)
    (s : Store) (req : Req) (now : ℚ) : Outcome × Store :=
  match keyGen req with
  | Except.error _ => (Outcome.allowedOnError, s)
  | Except.ok key => handleRequest p s key now

/-- Run a sequence of requests (given by their timestamps) for one key. -/
def runRequests (p : Policy) (key : String) (s : Store) :
    List ℚ → List Outcome × Store
  | [] => ([], s)
  | t :: ts =>
      let o := handleRequest p s key t
      let rest := runRequests p key o.2 ts
      (o.1 :: rest.1, rest.2)

/-- A sequence of `consume(1)` calls at the given timestamps. -/
def consumeSeq (b : TokenBucket) (ts : List ℚ) : TokenBucket :=
  ts.foldl (fun acc t => (acc.consume t 1).2) b

/-- The policy of the end-to-end scenario: capacity 5 per 60 s window. -/
def p5 : Policy := createRateLimit { windowMs := 60000, max := 5 }

/-- A full bucket (capacity 5, one token per 12 s) last touched at t = 0. -/
def bFull : TokenBucket :=
  { tokens := 5, lastRefill := 0, capacity := 5, refillRate := 1/12 }

/-- An empty bucket (capacity 5, one token per 12 s) last touched at t = 0. -/
def bEmpty : TokenBucket :=
  { tokens := 0, lastRefill := 0, capacity := 5, refillRate := 1/12 }

/-- An arbitrary existing bucket used to exercise `getBucket`. -/
def bOld : TokenBucket :=
  { tokens := 2, lastRefill := 7, capacity := 9, refillRate := 3 }

/-- A full bucket with capacity 5 and one token per second. -/
def bRate1 : TokenBucket :=
  { tokens := 5, lastRefill := 0, capacity := 5, refillRate := 1 }

/-- A request with an IP address and no authenticated user. -/
def reqNoUid : Req :=
  { ip := some "1.2.3.4", connectionRemoteAddress := none, userUid := none }

/-- A request with an authenticated user id. -/
def reqWithUid : Req :=
  { ip := some "7.7.7.7", connectionRemoteAddress := none, userUid := some "u42" }

/- ### Helper lemmas -/

lemma refill_lastRefill (b : TokenBucket) (now : ℚ) :
    (b.refill now).lastRefill = now := rfl

lemma refill_capacity (b : TokenBucket) (now : ℚ) :
    (b.refill now).capacity = b.capacity := rfl

lemma refill_refillRate (b : TokenBucket) (now : ℚ) :
    (b.refill now).refillRate = b.refillRate := rfl

lemma refill_tokens_le_capacity (b : TokenBucket) (now : ℚ) :
    (b.refill now).tokens ≤ b.capacity :=
  min_le_left _ _

lemma refill_tokens_nonneg (b : TokenBucket) (now : ℚ)
    (hc : 0 ≤ b.capacity) (hr : 0 ≤ b.refillRate)
    (h0 : 0 ≤ b.tokens) (hle : b.lastRefill ≤ now) :
    0 ≤ (b.refill now).tokens := by
  refine le_min hc ?_
  have hd : 0 ≤ (now - b.lastRefill) / 1000 * b.refillRate :=
    mul_nonneg (div_nonneg (sub_nonneg.2 hle) (by norm_num)) hr
  linarith

lemma refill_tokens_mono (b : TokenBucket) (now : ℚ)
    (hr : 0 ≤ b.refillRate) (hcap : b.tokens ≤ b.capacity)
    (hle : b.lastRefill ≤ now) :
    b.tokens ≤ (b.refill now).tokens := by
  have hd : 0 ≤ (now - b.lastRefill) / 1000 * b.refillRate :=
    mul_nonneg (div_nonneg (sub_nonneg.2 hle) (by norm_num)) hr
  have : b.tokens = min b.capacity b.tokens := (min_eq_right hcap).symm
  rw [this]
  exact min_le_min (le_refl _) (by linarith)

lemma refill_idem (b : TokenBucket) (now : ℚ) :
    (b.refill now).refill now = b.refill now := by
  unfold TokenBucket.refill
  simp [sub_self, zero_div, zero_mul, add_zero, ← min_assoc, min_self]

lemma consume_capacity (b : TokenBucket) (now cost : ℚ) :
    ((b.consume now cost).2).capacity = b.capacity := by
  by_cases h : cost ≤ (b.refill now).tokens <;>
    simp [TokenBucket.consume, h, refill_capacity]

lemma consume_refillRate (b : TokenBucket) (now cost : ℚ) :
    ((b.consume now cost).2).refillRate = b.refillRate := by
  by_cases h : cost ≤ (b.refill now).tokens <;>
    simp [TokenBucket.consume, h, refill_refillRate]

lemma consume_lastRefill (b : TokenBucket) (now cost : ℚ) :
    ((b.consume now cost).2).lastRefill = now := by
  by_cases h : cost ≤ (b.refill now).tokens <;>
    simp [TokenBucket.consume, h, refill_lastRefill]

lemma consume_tokens_le_capacity (b : TokenBucket) (now cost : ℚ)
    (hcost : 0 ≤ cost) :
    ((b.consume now cost).2).tokens ≤ b.capacity := by
  have hle := refill_tokens_le_capacity b now
  by_cases h : cost ≤ (b.refill now).tokens
  · simp only [TokenBucket.consume, h, if_pos]
    linarith
  · simp only [TokenBucket.consume, h, if_neg, not_false_iff]
    exact hle

lemma consume_one_tokens_nonneg (b : TokenBucket) (now : ℚ)
    (hc : 0 ≤ b.capacity) (hr : 0 ≤ b.refillRate)
    (h0 : 0 ≤ b.tokens) (hle : b.lastRefill ≤ now) :
    0 ≤ ((b.consume now 1).2).tokens := by
  have hnn := refill_tokens_nonneg b now hc hr h0 hle
  by_cases h : (1 : ℚ) ≤ (b.refill now).tokens
  · simp only [TokenBucket.consume, h, if_pos]
    linarith
  · simp only [TokenBucket.consume, h, if_neg, not_false_iff]
    exact hnn

lemma chain_le_take (n : ℕ) (a : ℚ) (l : List ℚ)
    (h : List.Chain (· ≤ ·) a l) :
    List.Chain (· ≤ ·) a (l.take n) := by
  induction l generalizing a n with
  | nil => simp
  | cons x xs ih =>
      cases n with
      | zero => exact List.Chain.nil
      | succ m =>
          cases h with
          | cons hax hxs => exact List.Chain.cons hax (ih m x hxs)

lemma consumeSeq_bounds (ts : List ℚ) (b : TokenBucket)
    (hc : 0 ≤ b.capacity) (hr : 0 ≤ b.refillRate)
    (h0 : 0 ≤ b.tokens) (h1 : b.tokens ≤ b.capacity)
    (hch : List.Chain (· ≤ ·) b.lastRefill ts) :
    0 ≤ (consumeSeq b ts).tokens ∧
    (consumeSeq b ts).tokens ≤ (consumeSeq b ts).capacity ∧
    (consumeSeq b ts).capacity = b.capacity := by
  induction ts generalizing b with
  | nil => exact ⟨h0, h1, rfl⟩
  | cons t rest ih =>
      cases hch with
      | cons hle hch' =>
          have hstep : consumeSeq b (t :: rest) = consumeSeq ((b.consume t 1).2) rest := rfl
          rw [hstep]
          have hcap := consume_capacity b t 1
          have hrate := consume_refillRate b t 1
          have hlast := consume_lastRefill b t 1
          have h0' := consume_one_tokens_nonneg b t hc hr h0 hle
          have h1' : ((b.consume t 1).2).tokens ≤ ((b.consume t 1).2).capacity := by
            rw [hcap]; exact consume_tokens_le_capacity b t 1 (by norm_num)
          have := ih ((b.consume t 1).2) (hcap ▸ hc) (hrate ▸ hr) h0' h1'
            (by rw [hlast]; exact hch')
          exact ⟨this.1, this.2.1, by rw [this.2.2, hcap]⟩

lemma bucketStep_denied_char (b : TokenBucket) (now : ℚ)
    (h : ¬ (1 : ℚ) ≤ (b.refill now).tokens) :
    bucketStep b now =
      (BucketResult.denied ⌈(1 - (b.refill now).tokens) / b.refillRate⌉,
       b.refill now) := by
  simp [bucketStep, TokenBucket.consume, TokenBucket.getTimeUntilRefill,
    refill_idem, refill_refillRate, h]

lemma bucketStep_admitted_char (b : TokenBucket) (now : ℚ)
    (h : (1 : ℚ) ≤ (b.refill now).tokens) :
    (bucketStep b now).1 = BucketResult.admitted
      ⌊({ b.refill now with tokens := (b.refill now).tokens - 1 }.refill now).tokens⌋ := by
  simp [bucketStep, TokenBucket.consume, TokenBucket.getTokens, h]

lemma bucketStep_denied_inv (b b' : TokenBucket) (now : ℚ) (r : ℤ)
    (h : bucketStep b now = (BucketResult.denied r, b')) :
    ¬ (1 : ℚ) ≤ (b.refill now).tokens ∧
    r = ⌈(1 - (b.refill now).tokens) / b.refillRate⌉ ∧
    b' = b.refill now := by
  by_cases hc : (1 : ℚ) ≤ (b.refill now).tokens
  · have := bucketStep_admitted_char b now hc
    rw [h] at this
    exact absurd this (by simp)
  · have hch := bucketStep_denied_char b now hc
    rw [hch] at h
    have h1 := congrArg Prod.fst h
    have h2 := congrArg Prod.snd h
    simp only at h1 h2
    refine ⟨hc, ?_, h2.symm⟩
    injection h1 with hr
    exact hr.symm

lemma cleanup_entry (e : String × TokenBucket) (now : ℚ) :
    (let g := e.2.getTokens now
     if (g.1 : ℚ) = g.2.capacity ∧ g.2.lastRefill < now - 10 * 60 * 1000 then none
     else some (e.1, g.2)) = some (e.1, e.2.refill now) := by
  simp only [TokenBucket.getTokens]
  rw [if_neg]
  rintro ⟨-, h2⟩
  rw [refill_lastRefill] at h2
  linarith

lemma cleanup_eq_refill_map (s : Store) (now : ℚ) :
    cleanup s now = s.map (fun e => (e.1, e.2.refill now)) := by
  induction s with
  | nil => rfl
  | cons e rest ih =>
      simp only [cleanup, List.filterMap_cons] at ih ⊢
      rw [cleanup_entry, ih]
      rfl

/- ### Claim theorems -/

/-- C1.  The spec says `sweep`/`cleanup` evicts every bucket that is at full
capacity and idle for longer than the 10-minute window.  The code never
evicts anything: `getTokens()` inside the eviction condition refills the
bucket and resets `lastRefill` to `now` before `lastRefill < cutoff` is
read, so the comparison is always false.  First conjunct: `cleanup`
preserves every key of every store.  Remaining conjuncts: a concrete
full bucket, idle since t = 0 and swept at t = 1 000 000 ms, satisfies the
spec's eviction condition and is nevertheless retained (only refreshed). -/
theorem cleanup_retains_idle_full_bucket :
    (∀ (s : Store) (now : ℚ), (cleanup s now).map Prod.fst = s.map Prod.fst) ∧
    ((bFull.getTokens 1000000).1 : ℚ) = bFull.capacity ∧
    bFull.lastRefill < 1000000 - 10 * 60 * 1000 ∧
    cleanup [("k", bFull)] 1000000 =
      [("k", { bFull with lastRefill := 1000000 })] := by
  refine ⟨?_, ?_, ?_, ?_⟩
  · intro s now
    rw [cleanup_eq_refill_map]
    simp
  · norm_num [TokenBucket.getTokens, TokenBucket.refill, bFull, min_def]
  · norm_num [bFull]
  · rw [cleanup_eq_refill_map]
    norm_num [TokenBucket.refill, bFull, min_def]

/-- C3.  End-to-end scenario: with capacity 5 and a 60 000 ms window, six
requests for the fresh key "k" at the same instant produce five admissions
with remaining 4, 3, 2, 1, 0 and then a denial with remaining 0 and
`Retry-After` = ⌈12⌉ = 12 seconds (one token per 60/5 s). -/
theorem endToEnd_capacity5_scenario :
    (runRequests p5 "k" [] [0, 0, 0, 0, 0, 0]).1 =
    [Outcome.allowed 5 4, Outcome.allowed 5 3, Outcome.allowed 5 2,
     Outcome.allowed 5 1, Outcome.allowed 5 0, Outcome.denied 5 0 12] := by
  norm_num [runRequests, handleRequest, bucketStep, TokenBucket.consume,
    TokenBucket.refill, TokenBucket.getTokens, TokenBucket.getTimeUntilRefill,
    getBucket, storeFind, storeSet, TokenBucket.create, createRateLimit,
    outcomeOf, p5, min_def]

/-- C5.  `consume` first refills; it returns `true` exactly when the
refilled token count is at least the cost, in which case the cost is
subtracted; on `false` the state is exactly the refilled bucket, so a
denied `consume` never decreases the token count. -/
theorem consume_admit_or_deny (b : TokenBucket) (now cost : ℚ) :
    ((b.consume now cost).1 = true ↔ cost ≤ (b.refill now).tokens) ∧
    ((b.consume now cost).1 = true →
      (b.consume now cost).2.tokens = (b.refill now).tokens - cost) ∧
    ((b.consume now cost).1 = false → (b.consume now cost).2 = b.refill now) := by
  by_cases h : cost ≤ (b.refill now).tokens <;>
    simp [TokenBucket.consume, h]

/-- Witness for C5 at a concrete denied call: an empty bucket consumed at
its own `lastRefill` keeps exactly its refilled state. -/
theorem consume_admit_or_deny_witness :
    (bEmpty.consume 0 1).2 = bEmpty.refill 0 :=
  (consume_admit_or_deny bEmpty 0 1).2.2 (by
    norm_num [TokenBucket.consume, TokenBucket.refill, bEmpty, min_def])

/-- C6.  `getBucket` returns the stored bucket unchanged (for any capacity
and refill-rate arguments, so parameters of a later policy that shares the
key are ignored); on a missing key it inserts a bucket created full
(`tokens = capacity`). -/
theorem getBucket_getOrCreate (s : Store) (key : String) (c r now : ℚ) :
    (∀ b, storeFind s key = some b → getBucket s key c r now = (b, s)) ∧
    (storeFind s key = none →
      getBucket s key c r now =
        (TokenBucket.create c r now, (key, TokenBucket.create c r now) :: s) ∧
      (TokenBucket.create c r now).tokens = c) := by
  constructor
  · intro b h
    simp [getBucket, h]
  · intro h
    exact ⟨by simp [getBucket, h], rfl⟩

/-- Witness for C6: a present key returns the stored bucket untouched even
with different parameters; an absent key creates a full bucket. -/
theorem getBucket_getOrCreate_witness :
    getBucket [("a", bOld)] "a" 99 77 5 = (bOld, [("a", bOld)]) ∧
    getBucket [] "b" 4 1 5 =
      (TokenBucket.create 4 1 5, [("b", TokenBucket.create 4 1 5)]) :=
  ⟨(getBucket_getOrCreate [("a", bOld)] "a" 99 77 5).1 bOld (by simp [storeFind]),
   ((getBucket_getOrCreate [] "b" 4 1 5).2 (by simp [storeFind])).1⟩

/-- C7.  Fail-open: if key derivation (the only fallible step of the `try`
block — bucket lookup and `consume` are total arithmetic) throws, the
middleware catches the error, calls `next()` (the request is admitted) and
leaves the store untouched; no exception reaches the caller, `middleware`
being a total function. -/
theorem middleware_fail_open (p : Policy) (keyGen : Req → Except String String)
    (s : Store) (req : Req) (now : ℚ) (e : String)
    (h : keyGen req = Except.error e) :
    (middleware p keyGen s req now).1.nextCalled = true ∧
    (middleware p keyGen s req now).2 = s := by
  simp [middleware, h, Outcome.nextCalled]

/-- Witness for C7 with a key generator that always throws. -/
theorem middleware_fail_open_witness :
    (middleware p5 (fun _ => Except.error "boom") [] reqNoUid 0).1.nextCalled = true ∧
    (middleware p5 (fun _ => Except.error "boom") [] reqNoUid 0).2 = [] :=
  middleware_fail_open p5 (fun _ => Except.error "boom") [] reqNoUid 0 "boom" rfl

/-- C9 counterexample.  For a request with no authenticated uid and IP
1.2.3.4, the user key generator returns "ip:1.2.3.4" while the default key
generator returns "1.2.3.4": the fallback is *not* the ByOrigin key. -/
theorem userKeyGenerator_fallback_differs :
    userKeyGenerator reqNoUid = "ip:1.2.3.4" ∧
    getDefaultKey reqNoUid = "1.2.3.4" ∧
    userKeyGenerator reqNoUid ≠ getDefaultKey reqNoUid := by
  refine ⟨?_, ?_, ?_⟩ <;>
    simp [userKeyGenerator, getDefaultKey, orElseStr, truthyOpt, reqNoUid]

/-- C9 amended.  The caller-based strategy returns `"user:" ++ uid` when an
authenticated caller id is present (truthy); otherwise it returns the
ByOrigin key *prefixed with* `"ip:"`, not the bare ByOrigin key. -/
theorem userKeyGenerator_semantics (req : Req) :
    (∀ uid, truthyOpt req.userUid = some uid →
      userKeyGenerator req = "user:" ++ uid) ∧
    (truthyOpt req.userUid = none →
      userKeyGenerator req = "ip:" ++ getDefaultKey req) := by
  constructor
  · intro uid h
    simp [userKeyGenerator, h]
  · intro h
    simp [userKeyGenerator, getDefaultKey, h]

/-- Witness for C9 amended on both branches. -/
theorem userKeyGenerator_semantics_witness :
    userKeyGenerator reqWithUid = "user:" ++ "u42" ∧
    userKeyGenerator reqNoUid = "ip:" ++ getDefaultKey reqNoUid :=
  ⟨(userKeyGenerator_semantics reqWithUid).1 "u42" (by simp [truthyOpt, reqWithUid]),
   (userKeyGenerator_semantics reqNoUid).2 (by simp [truthyOpt, reqNoUid])⟩

/-- C10.  Every public bucket operation begins with `refill`, which
unconditionally sets `lastRefill` to the current time: after `refill`,
`consume`, `getTokens` or `getTimeUntilRefill` at time `now`, the stored
`lastRefill` equals `now` — it records the most recent operation of any
kind, not the most recent consumption. -/
theorem operations_refresh_lastRefill (b : TokenBucket) (now cost : ℚ) :
    (b.refill now).lastRefill = now ∧
    ((b.consume now cost).2).lastRefill = now ∧
    ((b.getTokens now).2).lastRefill = now ∧
    ((b.getTimeUntilRefill now).2).lastRefill = now := by
  refine ⟨rfl, consume_lastRefill b now cost, rfl, ?_⟩
  by_cases h : (1 : ℚ) ≤ (b.refill now).tokens <;>
    simp [TokenBucket.getTimeUntilRefill, h, refill_lastRefill]

/-- C2.  Capacity bound invariant: from any state within bounds, along any
sequence of `consume(1)` calls at non-decreasing wall-clock times the token
count stays within `0 ≤ tokens ≤ capacity` after every call; a successful
consumption subtracts exactly 1 from the refilled count; and the refill
between consumptions never pushes tokens above capacity. -/
theorem tokenBucket_capacity_bound (b : TokenBucket) (ts : List ℚ)
    (hc : 0 ≤ b.capacity) (hr : 0 ≤ b.refillRate)
    (h0 : 0 ≤ b.tokens) (h1 : b.tokens ≤ b.capacity)
    (hch : List.Chain (· ≤ ·) b.lastRefill ts) :
    (∀ n : ℕ, 0 ≤ (consumeSeq b (ts.take n)).tokens ∧
      (consumeSeq b (ts.take n)).tokens ≤ b.capacity) ∧
    (∀ (c : TokenBucket) (now : ℚ), (c.consume now 1).1 = true →
      (c.consume now 1).2.tokens = (c.refill now).tokens - 1) ∧
    (∀ (c : TokenBucket) (now : ℚ), (c.refill now).tokens ≤ c.capacity) := by
  refine ⟨?_, ?_, ?_⟩
  · intro n
    have hb := consumeSeq_bounds (ts.take n) b hc hr h0 h1 (chain_le_take n _ _ hch)
    exact ⟨hb.1, by rw [← hb.2.2]; exact hb.2.1⟩
  · intro c now hcons
    by_cases h : (1 : ℚ) ≤ (c.refill now).tokens
    · simp [TokenBucket.consume, h]
    · simp [TokenBucket.consume, h] at hcons
  · intro c now
    exact refill_tokens_le_capacity c now

/-- Witness for C2: three spaced calls on a full capacity-5 bucket keep the
token count within bounds. -/
theorem tokenBucket_capacity_bound_witness :
    0 ≤ (consumeSeq bRate1 ([0, 1000, 2000].take 2)).tokens ∧
    (consumeSeq bRate1 ([0, 1000, 2000].take 2)).tokens ≤ bRate1.capacity :=
  (tokenBucket_capacity_bound bRate1 [0, 1000, 2000] (by norm_num [bRate1])
    (by norm_num [bRate1]) (by norm_num [bRate1]) (by norm_num [bRate1])
    (by norm_num [bRate1, List.chain_cons])).1 2

/-- C4.  On a denial the middleware's `Retry-After`, namely
`⌈getTimeUntilRefill()⌉`, is strictly positive, and across two successive
denials on the same bucket at non-decreasing times with no intervening
admission the reported value does not increase. -/
theorem retryAfter_positive_and_monotone (b b1 b2 : TokenBucket) (t1 t2 : ℚ)
    (r1 r2 : ℤ) (hrate : 0 < b.refillRate) (ht : t1 ≤ t2)
    (h1 : bucketStep b t1 = (BucketResult.denied r1, b1))
    (h2 : bucketStep b1 t2 = (BucketResult.denied r2, b2)) :
    0 < r1 ∧ 0 < r2 ∧ r2 ≤ r1 := by
  obtain ⟨hc1, hr1, hb1⟩ := bucketStep_denied_inv b b1 t1 r1 h1
  obtain ⟨hc2, hr2, _⟩ := bucketStep_denied_inv b1 b2 t2 r2 h2
  have hb1tok : b1.tokens = (b.refill t1).tokens := by rw [hb1]
  have hb1cap : b1.capacity = b.capacity := by rw [hb1]; rfl
  have hb1rate : b1.refillRate = b.refillRate := by rw [hb1]; rfl
  have hb1last : b1.lastRefill = t1 := by rw [hb1]; rfl
  have htok1 : (b.refill t1).tokens < 1 := not_le.mp hc1
  have htok2 : (b1.refill t2).tokens < 1 := not_le.mp hc2
  have htokle : b1.tokens ≤ b1.capacity := by
    rw [hb1tok, hb1cap]; exact refill_tokens_le_capacity b t1
  have hmono : b1.tokens ≤ (b1.refill t2).tokens :=
    refill_tokens_mono b1 t2 (by rw [hb1rate]; exact le_of_lt hrate) htokle
      (by rw [hb1last]; exact ht)
  refine ⟨?_, ?_, ?_⟩
  · rw [hr1]
    exact Int.ceil_pos.mpr (div_pos (by linarith) hrate)
  · rw [hr2, hb1rate]
    exact Int.ceil_pos.mpr (div_pos (by linarith) hrate)
  · rw [hr1, hr2, hb1rate]
    exact Int.ceil_mono ((div_le_div_iff_of_pos_right hrate).mpr (by linarith))

/-- Witness for C4: an empty bucket denied twice at t = 0 reports
Retry-After 12 both times: positive and non-increasing. -/
theorem retryAfter_positive_and_monotone_witness :
    bucketStep bEmpty 0 = (BucketResult.denied 12, bEmpty) ∧
    ((0 : ℤ) < 12 ∧ (0 : ℤ) < 12 ∧ (12 : ℤ) ≤ 12) :=
  have hstep : bucketStep bEmpty 0 = (BucketResult.denied 12, bEmpty) := by
    norm_num [bucketStep, TokenBucket.consume, TokenBucket.getTimeUntilRefill,
      TokenBucket.refill, bEmpty, min_def]
  ⟨hstep, retryAfter_positive_and_monotone bEmpty bEmpty bEmpty 0 0 12 12
    (by norm_num [bEmpty]) (le_refl 0) hstep hstep⟩

/-- C8 counterexample.  `createRateLimit` with capacity 0 does *not* fail:
construction completes normally (yielding `refillRate = 0`), and the
misconfiguration surfaces only at request time, where the first request is
denied. -/
theorem createRateLimit_accepts_nonpositive_config :
    createRateLimit { windowMs := 60000, max := 0 } =
      { windowMs := 60000, max := 0, refillRate := 0 } ∧
    (handleRequest (createRateLimit { windowMs := 60000, max := 0 })
      [] "k" 0).1.isDenied = true := by
  constructor
  · norm_num [createRateLimit]
  · norm_num [handleRequest, getBucket, storeFind, bucketStep,
      TokenBucket.consume, TokenBucket.refill, TokenBucket.getTokens,
      TokenBucket.getTimeUntilRefill, TokenBucket.create, createRateLimit,
      outcomeOf, Outcome.isDenied, min_def]

/-- C8 amended.  `createRateLimit` performs no construction-time validation:
for every configuration, construction succeeds and returns the policy with
`refillRate = max / (windowMs / 1000)`; with a non-positive capacity the
misconfiguration is discovered lazily, per request, as a denial. -/
theorem createRateLimit_misconfig_surfaces_at_request_time
    (cfg : RateLimitConfig) (key : String) (now : ℚ) (h : cfg.max ≤ 0) :
    createRateLimit cfg =
      { windowMs := cfg.windowMs, max := cfg.max,
        refillRate := cfg.max / (cfg.windowMs / 1000) } ∧
    (handleRequest (createRateLimit cfg) [] key now).1.isDenied = true := by
  refine ⟨rfl, ?_⟩
  have hlt : ¬ (1 : ℚ) ≤ cfg.max := by linarith
  simp [handleRequest, getBucket, storeFind, bucketStep, TokenBucket.consume,
    TokenBucket.refill, TokenBucket.create, createRateLimit, outcomeOf,
    Outcome.isDenied, sub_self, zero_div, zero_mul, add_zero, min_self, hlt]

/-- Witness for C8 amended at a concrete negative capacity. -/
theorem createRateLimit_misconfig_witness :
    createRateLimit { windowMs := 1000, max := -2 } =
      { windowMs := 1000, max := -2, refillRate := -2 / (1000 / 1000) } ∧
    (handleRequest (createRateLimit { windowMs := 1000, max := -2 })
      [] "x" 3).1.isDenied = true :=
  createRateLimit_misconfig_surfaces_at_request_time
    { windowMs := 1000, max := -2 } "x" 3 (by norm_num)

end RateLimiting
